import Mathlib

set_option autoImplicit false

/-!
Verification of the Mockingbird / Catalyst mock-server core against its
natural-language specification.  The definitions below are shallow
embeddings of the Go source:

* chaos engine            — src/internal/chaos/chaos.go
* template generators     — src/internal/handler/handler.go (processResponseTemplate)
* request pipeline        — src/internal/handler/handler.go (HandleRequest)
* transaction batcher     — src/database/batch.go, src/database/colas.go
* descriptor validation   — src/unnamed/part_008 (validateConfig)
* listener supervisor     — src/internal/server/server.go (CreateServer)
* control plane           — src/unnamed/part_002 (UpdateConfig)

Go machine integers are modelled as `Int` (no arithmetic in the verified
paths comes close to overflow), `rand.Float64()` rolls as rationals in
[0,1) passed in explicitly, and `strconv.ParseFloat` results as
`Option ℚ` (`none` = parse error on a non-numeric string).
-/

namespace Mockingbird

/-! ## Chaos engine (src/internal/chaos/chaos.go)

`models.Latency/Abort/Error` carry the probability as a string parsed at
roll time with `strconv.ParseFloat`; the parse outcome is embedded as
`Option ℚ`.  A `ResponseWriter` records the status written by
`WriteHeader` and the body bytes written so far. -/

structure Latency where
  time : Int
  probability : Option ℚ
deriving DecidableEq

structure Abort where
  code : Int
  probability : Option ℚ
deriving DecidableEq

structure ChaosError where
  code : Int
  probability : Option ℚ
  response : String
deriving DecidableEq

structure ChaosInjection where
  latency : Latency
  abort : Abort
  error : ChaosError
deriving DecidableEq

structure ResponseWriter where
  status : Option Int
  body : String
deriving DecidableEq

structure ChaosOutcome where
  writer : ResponseWriter
  shortCircuit : Bool
  sleepMs : Int
deriving DecidableEq

/-- `Engine.applyLatency`: zero when the latency time is not positive, the
probability fails to parse, parses ≤ 0, or the roll misses; otherwise the
configured delay in milliseconds. -/
def applyLatency (lat : Latency) (roll : ℚ) : Int :=
  if lat.time ≤ 0 then 0
  else
    match lat.probability with
    | none => 0
    | some p => if p ≤ 0 then 0 else if roll * 100 > p then 0 else lat.time

/-- `Engine.applyAbort`: the abort status code when the axis fires, 0 otherwise. -/
def applyAbort (ab : Abort) (roll : ℚ) : Int :=
  if ab.code ≤ 0 then 0
  else
    match ab.probability with
    | none => 0
    | some p => if p ≤ 0 then 0 else if roll * 100 > p then 0 else ab.code

/-- `Engine.applyError`: the error status code when the axis fires, 0 otherwise. -/
def applyError (er : ChaosError) (roll : ℚ) : Int :=
  if er.code ≤ 0 then 0
  else
    match er.probability with
    | none => 0
    | some p => if p ≤ 0 then 0 else if roll * 100 > p then 0 else er.code

/-- Body of `Engine.ApplyChaos` for a present configuration: the latency
axis contributes only the slept duration (`sleepMs`); the abort axis, then
the error axis, write their status code and short-circuit.  The error path
calls only `w.WriteHeader(errorCode)`; no body is written. -/
def applyChaosCfg (c : ChaosInjection) (r1 r2 r3 : ℚ) (w : ResponseWriter) : ChaosOutcome :=
  if 0 < applyAbort c.abort r2 then
    { writer := { w with status := some (applyAbort c.abort r2) }, shortCircuit := true,
      sleepMs := applyLatency c.latency r1 }
  else if 0 < applyError c.error r3 then
    { writer := { w with status := some (applyError c.error r3) }, shortCircuit := true,
      sleepMs := applyLatency c.latency r1 }
  else
    { writer := w, shortCircuit := false, sleepMs := applyLatency c.latency r1 }

/-- `Engine.ApplyChaos`: a nil configuration is a no-op returning false. -/
def ApplyChaos (cfg : Option ChaosInjection) (r1 r2 r3 : ℚ) (w : ResponseWriter) :
    ChaosOutcome :=
  match cfg with
  | none => { writer := w, shortCircuit := false, sleepMs := 0 }
  | some c => applyChaosCfg c r1 r2 r3 w

/-- A chaos configuration whose only firing axis is the error axis. -/
def errOnlyChaos : ChaosInjection :=
  { latency := { time := 0, probability := none }
    abort := { code := 0, probability := none }
    error := { code := 503, probability := some 100, response := "chaos error body" } }

/-- `applyError` returns either 0 or the configured (positive) error code. -/
theorem applyError_cases (er : ChaosError) (roll : ℚ) :
    applyError er roll = 0 ∨ (0 < er.code ∧ applyError er roll = er.code) := by
  unfold applyError
  by_cases h1 : er.code ≤ 0
  · left
    rw [if_pos h1]
  · rw [if_neg h1]
    rcases hp : er.probability with _ | p
    · left
      rfl
    · by_cases h2 : p ≤ 0
      · left
        simp [h2]
      · by_cases h3 : roll * 100 > p
        · left
          simp [h2, h3]
        · right
          exact ⟨by omega, by simp [h2, h3]⟩

/-- C2, counterexample.  With only the error axis configured
(code 503, probability 100, response "chaos error body") and any roll,
`ApplyChaos` fires the axis and short-circuits with status 503, yet the
response body stays empty: `error.response` is never written to the
response writer, contradicting the claim that the error axis writes
`error.response` as the response body. -/
theorem c2_counterexample :
    (ApplyChaos (some errOnlyChaos) 0 0 0 { status := none, body := "" }).shortCircuit = true ∧
    (ApplyChaos (some errOnlyChaos) 0 0 0 { status := none, body := "" }).writer.status
      = some 503 ∧
    (ApplyChaos (some errOnlyChaos) 0 0 0 { status := none, body := "" }).writer.body
      ≠ errOnlyChaos.error.response := by
  have hab : applyAbort errOnlyChaos.abort 0 = 0 := by norm_num [applyAbort, errOnlyChaos]
  have her : applyError errOnlyChaos.error 0 = 503 := by norm_num [applyError, errOnlyChaos]
  have hout : ApplyChaos (some errOnlyChaos) 0 0 0 { status := none, body := "" }
      = { writer := { status := some 503, body := "" }, shortCircuit := true,
          sleepMs := applyLatency errOnlyChaos.latency 0 } := by
    show applyChaosCfg errOnlyChaos 0 0 0 { status := none, body := "" } = _
    unfold applyChaosCfg
    rw [hab, her]
    norm_num
  rw [hout]
  refine ⟨rfl, rfl, ?_⟩
  show ("" : String) ≠ "chaos error body"
  decide

/-- C2, amended.  When the abort axis does not fire and the error axis
fires, `ApplyChaos` writes `error.code` as the response status code and
returns `true` so the pipeline short-circuits; the response body is left
unchanged (`error.response` is not written to the HTTP response). -/
theorem c2_amended (cfg : ChaosInjection) (r1 r2 r3 : ℚ) (w : ResponseWriter)
    (habort : applyAbort cfg.abort r2 = 0)
    (herror : applyError cfg.error r3 ≠ 0) :
    (ApplyChaos (some cfg) r1 r2 r3 w).shortCircuit = true ∧
    (ApplyChaos (some cfg) r1 r2 r3 w).writer.status = some cfg.error.code ∧
    (ApplyChaos (some cfg) r1 r2 r3 w).writer.body = w.body := by
  rcases applyError_cases cfg.error r3 with h | ⟨hpos, hcode⟩
  · exact absurd h herror
  · have hpos' : 0 < applyError cfg.error r3 := by rw [hcode]; exact hpos
    have hout : ApplyChaos (some cfg) r1 r2 r3 w
        = { writer := { w with status := some cfg.error.code }, shortCircuit := true,
            sleepMs := applyLatency cfg.latency r1 } := by
      show applyChaosCfg cfg r1 r2 r3 w = _
      unfold applyChaosCfg
      rw [habort, if_neg (lt_irrefl 0), if_pos hpos', hcode]
    rw [hout]
    exact ⟨rfl, rfl, rfl⟩

/-- C2 amended, witness at the concrete error-only configuration. -/
theorem c2_witness :
    (ApplyChaos (some errOnlyChaos) 0 0 0 { status := none, body := "b" }).shortCircuit
      = true ∧
    (ApplyChaos (some errOnlyChaos) 0 0 0 { status := none, body := "b" }).writer.status
      = some 503 ∧
    (ApplyChaos (some errOnlyChaos) 0 0 0 { status := none, body := "b" }).writer.body
      = "b" :=
  c2_amended errOnlyChaos 0 0 0 { status := none, body := "b" }
    (by norm_num [applyAbort, errOnlyChaos])
    (by norm_num [applyError, errOnlyChaos])

/-- C7.  Each chaos axis is a no-op when its probability fails to parse
(`none`) or parses as ≤ 0; with probability 100 and a configured axis
(`time > 0` resp. `code > 0`), the axis fires for every roll in [0,1);
and when neither the abort nor the error axis fires, `ApplyChaos` leaves
the response writer untouched and does not short-circuit. -/
theorem c7_probability_boundaries :
    (∀ (lat : Latency) (r : ℚ), lat.probability = none → applyLatency lat r = 0) ∧
    (∀ (lat : Latency) (r p : ℚ), lat.probability = some p → p ≤ 0 →
      applyLatency lat r = 0) ∧
    (∀ (ab : Abort) (r : ℚ), ab.probability = none → applyAbort ab r = 0) ∧
    (∀ (ab : Abort) (r p : ℚ), ab.probability = some p → p ≤ 0 → applyAbort ab r = 0) ∧
    (∀ (er : ChaosError) (r : ℚ), er.probability = none → applyError er r = 0) ∧
    (∀ (er : ChaosError) (r p : ℚ), er.probability = some p → p ≤ 0 →
      applyError er r = 0) ∧
    (∀ (lat : Latency) (r : ℚ), lat.probability = some 100 → 0 < lat.time →
      0 ≤ r → r < 1 → applyLatency lat r = lat.time) ∧
    (∀ (ab : Abort) (r : ℚ), ab.probability = some 100 → 0 < ab.code →
      0 ≤ r → r < 1 → applyAbort ab r = ab.code) ∧
    (∀ (er : ChaosError) (r : ℚ), er.probability = some 100 → 0 < er.code →
      0 ≤ r → r < 1 → applyError er r = er.code) ∧
    (∀ (cfg : ChaosInjection) (r1 r2 r3 : ℚ) (w : ResponseWriter),
      applyAbort cfg.abort r2 = 0 → applyError cfg.error r3 = 0 →
      (ApplyChaos (some cfg) r1 r2 r3 w).writer = w ∧
      (ApplyChaos (some cfg) r1 r2 r3 w).shortCircuit = false) := by
  have hroll : ∀ r : ℚ, r < 1 → ¬ (r * 100 > (100 : ℚ)) := by
    intro r hr
    have h : r * 100 < 100 := by nlinarith
    linarith
  have h100 : ¬ ((100 : ℚ) ≤ 0) := by norm_num
  refine ⟨?_, ?_, ?_, ?_, ?_, ?_, ?_, ?_, ?_, ?_⟩
  · intro lat r h
    unfold applyLatency
    rw [h]
    split <;> rfl
  · intro lat r p h hp
    unfold applyLatency
    rw [h]
    split
    · rfl
    · simp [hp]
  · intro ab r h
    unfold applyAbort
    rw [h]
    split <;> rfl
  · intro ab r p h hp
    unfold applyAbort
    rw [h]
    split
    · rfl
    · simp [hp]
  · intro er r h
    unfold applyError
    rw [h]
    split <;> rfl
  · intro er r p h hp
    unfold applyError
    rw [h]
    split
    · rfl
    · simp [hp]
  · intro lat r h ht _ hr
    unfold applyLatency
    rw [h, if_neg (by omega)]
    simp [h100, hroll r hr]
  · intro ab r h hc _ hr
    unfold applyAbort
    rw [h, if_neg (by omega)]
    simp [h100, hroll r hr]
  · intro er r h hc _ hr
    unfold applyError
    rw [h, if_neg (by omega)]
    simp [h100, hroll r hr]
  · intro cfg r1 r2 r3 w hab her
    have hout : ApplyChaos (some cfg) r1 r2 r3 w
        = { writer := w, shortCircuit := false,
            sleepMs := applyLatency cfg.latency r1 } := by
      show applyChaosCfg cfg r1 r2 r3 w = _
      unfold applyChaosCfg
      rw [hab, her, if_neg (lt_irrefl 0), if_neg (lt_irrefl 0)]
    rw [hout]
    exact ⟨rfl, rfl⟩

/-- C7, witness: concrete no-op and always-fire instances. -/
theorem c7_witness :
    applyLatency { time := 5, probability := none } (1/2) = 0 ∧
    applyAbort { code := 503, probability := some (-3) } (1/2) = 0 ∧
    applyError { code := 500, probability := some 100, response := "x" } (1/2) = 500 ∧
    applyLatency { time := 7, probability := some 100 } (1/2) = 7 := by
  refine ⟨?_, ?_, ?_, ?_⟩
  · exact c7_probability_boundaries.1 { time := 5, probability := none } (1/2) rfl
  · exact c7_probability_boundaries.2.2.2.1
      { code := 503, probability := some (-3) } (1/2) (-3) rfl (by norm_num)
  · exact c7_probability_boundaries.2.2.2.2.2.2.2.2.1
      { code := 500, probability := some 100, response := "x" } (1/2) rfl
      (by norm_num) (by norm_num) (by norm_num)
  · exact c7_probability_boundaries.2.2.2.2.2.2.1
      { time := 7, probability := some 100 } (1/2) rfl (by norm_num) (by norm_num)
      (by norm_num)

/-! ## Template generator helpers (src/internal/handler/handler.go)

`processResponseTemplate` installs the generator helpers of the template
engine.  Six of them (`randInt`, `randNumericString`, `randName`,
`randVenezuelanID`, `randAccount`, `randMessage`) first consult the
per-transaction random cache `randomValues` under a key built from the
generator name and its parameters, and store a freshly generated value on
a miss; `randString`, `randChoice` and `randFloat` never touch the cache.

The Go cache key is a `fmt.Sprintf` string such as `"randInt_%d_%d"`;
since the integer and bank-code components decompose uniquely, the
encoding is injective and is embedded as the structured type `GKey`.
`rand.Intn n` (which panics for `n ≤ 0`) is modelled by `roll % n` for an
arbitrary entropy roll, and a panic by `none`. -/

inductive GVal where
  | i (n : Int)
  | s (str : String)
  | f (q : ℚ)
deriving DecidableEq

inductive GKey where
  | randIntK (lo hi : Int)
  | randNumericStringK (len : Int)
  | randNameK
  | randVenezuelanIDK
  | randAccountK (bankCode : String) (len : Int)
  | randMessageK
deriving DecidableEq

/-- One generator invocation as written in a template: the helper plus its
arguments. -/
inductive Gen where
  | randIntG (lo hi : Int)
  | randNumericStringG (len : Int)
  | randNameG
  | randVenezuelanIDG
  | randAccountG (bankCode : String) (len : Int)
  | randMessageG
  | randStringG (len : Int)
  | randChoiceG (choices : List String)
  | randFloatG (lo hi : ℚ)
deriving DecidableEq

/-- Entropy consumed by one helper invocation: a stream of `rand.Intn`
rolls and one `rand.Float64()` roll. -/
structure Entropy where
  rolls : Nat → Nat
  froll : ℚ

def digitChars : List Char :=
  ['0', '1', '2', '3', '4', '5', '6', '7', '8', '9']

def letterChars : List Char :=
  ['A', 'B', 'C', 'D', 'E', 'F', 'G', 'H', 'I', 'J', 'K', 'L', 'M', 'N', 'O', 'P',
   'Q', 'R', 'S', 'T', 'U', 'V', 'W', 'X', 'Y', 'Z']

def alnumChars : List Char :=
  ['a', 'b', 'c', 'd', 'e', 'f', 'g', 'h', 'i', 'j', 'k', 'l', 'm', 'n', 'o', 'p',
   'q', 'r', 's', 't', 'u', 'v', 'w', 'x', 'y', 'z',
   'A', 'B', 'C', 'D', 'E', 'F', 'G', 'H', 'I', 'J', 'K', 'L', 'M', 'N', 'O', 'P',
   'Q', 'R', 'S', 'T', 'U', 'V', 'W', 'X', 'Y', 'Z',
   '0', '1', '2', '3', '4', '5', '6', '7', '8', '9']

def firstNames : List String :=
  ["Kathryn", "Rebecca", "John", "Maria", "Carlos", "Ana", "Luis", "Patricia",
   "Roberto", "Laura", "David", "Sofia", "Michael", "Isabella", "James", "Emily",
   "William", "Olivia", "Richard", "Emma"]

def lastNames : List String :=
  ["Schmitt", "Anderson", "Smith", "Johnson", "Williams", "Brown", "Jones",
   "Garcia", "Miller", "Davis", "Rodriguez", "Martinez", "Hernandez", "Lopez",
   "Gonzalez", "Wilson", "Anderson", "Thomas", "Taylor", "Moore"]

def randMessages : List String :=
  ["PRUEBA ENVIO", "TRANSFERENCIA", "PAGO SERVICIO", "ABONO CUENTA",
   "DEBITO AUTOMATICO", "CREDITO AUTOMATICO", "TRANSACCION PRUEBA",
   "OPERACION TEST"]

/-- A string of `len` decimal digits, one entropy roll per digit. -/
def natDigits (rolls : Nat → Nat) (len : Nat) : String :=
  String.mk ((List.range len).map (fun i => digitChars.getD (rolls i % 10) '0'))

/-- The generation step of each helper, with the cache out of the
picture; `none` models a Go panic (`rand.Intn` with a non-positive
argument, `make([]byte, n)` with a negative `n`). -/
def freshGen : Gen → Entropy → Option GVal
  | .randIntG lo hi, e =>
      if hi - lo ≤ 0 then none
      else some (.i ((e.rolls 0 : Int) % (hi - lo) + lo))
  | .randNumericStringG len, e =>
      if len < 0 then none else some (.s (natDigits e.rolls len.toNat))
  | .randNameG, e =>
      some (.s (firstNames.getD (e.rolls 0 % firstNames.length) "" ++ " " ++
        lastNames.getD (e.rolls 1 % lastNames.length) ""))
  | .randVenezuelanIDG, e =>
      some (.s (String.mk [letterChars.getD (e.rolls 0 % letterChars.length) 'A'] ++
        String.mk ((List.range 8).map
          (fun i => digitChars.getD (e.rolls (i + 1) % 10) '0'))))
  | .randAccountG bank len, e =>
      if len < 0 then none else some (.s (bank ++ natDigits e.rolls len.toNat))
  | .randMessageG, e =>
      some (.s (randMessages.getD (e.rolls 0 % randMessages.length) ""))
  | .randStringG len, e =>
      if len < 0 then none
      else some (.s (String.mk ((List.range len.toNat).map
        (fun i => alnumChars.getD (e.rolls i % alnumChars.length) 'a'))))
  | .randChoiceG choices, e =>
      if choices.isEmpty then some (.s "")
      else some (.s (choices.getD (e.rolls 0 % choices.length) ""))
  | .randFloatG lo hi, e => some (.f (lo + e.froll * (hi - lo)))

/-- The helpers that consult and fill the per-transaction random cache. -/
def cachedGen : Gen → Bool
  | .randIntG _ _ => true
  | .randNumericStringG _ => true
  | .randNameG => true
  | .randVenezuelanIDG => true
  | .randAccountG _ _ => true
  | .randMessageG => true
  | .randStringG _ => false
  | .randChoiceG _ => false
  | .randFloatG _ _ => false

/-- The cache key of a cached helper invocation (`fmt.Sprintf` key in Go).
Uncached helpers never use their key. -/
def keyOf : Gen → GKey
  | .randIntG lo hi => .randIntK lo hi
  | .randNumericStringG len => .randNumericStringK len
  | .randNameG => .randNameK
  | .randVenezuelanIDG => .randVenezuelanIDK
  | .randAccountG bank len => .randAccountK bank len
  | .randMessageG => .randMessageK
  | .randStringG _ => .randNameK
  | .randChoiceG _ => .randNameK
  | .randFloatG _ _ => .randNameK

/-- The per-transaction random cache `randomValues` (a Go map, modelled as
an association list with most recent binding first). -/
abbrev Cache := List (GKey × GVal)

def lookup : Cache → GKey → Option GVal
  | [], _ => none
  | (k, v) :: rest, k' => if k' = k then some v else lookup rest k'

def cacheInsert (c : Cache) (k : GKey) (v : GVal) : Cache := (k, v) :: c

/-- One helper invocation: a cached helper first consults the cache and
stores a fresh value on a miss; an uncached helper always generates
fresh.  `none` propagates a panic. -/
def callGen (g : Gen) (e : Entropy) (c : Cache) : Option (GVal × Cache) :=
  if cachedGen g = true then
    match lookup c (keyOf g) with
    | some v => some (v, c)
    | none =>
      match freshGen g e with
      | none => none
      | some v => some (v, cacheInsert c (keyOf g) v)
  else
    match freshGen g e with
    | none => none
    | some v => some (v, c)

/-- All helper invocations of one transaction (response rendering followed
by the fan-out body renderings, which share the transaction's cache),
threading the random cache through. -/
def runCalls : List (Gen × Entropy) → Cache → Option (List GVal × Cache)
  | [], c => some ([], c)
  | (g, e) :: rest, c =>
    match callGen g e c with
    | none => none
    | some (v, c') =>
      match runCalls rest c' with
      | none => none
      | some (vs, c'') => some (v :: vs, c'')

def eZero : Entropy := { rolls := fun _ => 0, froll := 0 }

def eOne : Entropy := { rolls := fun _ => 1, froll := 1/2 }

/-- A cache hit returns the cached value and leaves the cache unchanged. -/
theorem callGen_cached_hit {g : Gen} {c : Cache} {v : GVal} (e : Entropy)
    (hg : cachedGen g = true) (hl : lookup c (keyOf g) = some v) :
    callGen g e c = some (v, c) := by
  unfold callGen
  rw [if_pos hg, hl]

/-- A successful cached invocation leaves its key bound to the returned
value. -/
theorem callGen_cached_stores {g : Gen} {e : Entropy} {c c' : Cache} {v : GVal}
    (hg : cachedGen g = true) (hstep : callGen g e c = some (v, c')) :
    lookup c' (keyOf g) = some v := by
  unfold callGen at hstep
  rw [if_pos hg] at hstep
  rcases hl : lookup c (keyOf g) with _ | w
  · rw [hl] at hstep
    rcases hf : freshGen g e with _ | u
    · rw [hf] at hstep
      cases hstep
    · rw [hf] at hstep
      simp only [Option.some.injEq, Prod.mk.injEq] at hstep
      obtain ⟨rfl, rfl⟩ := hstep
      show lookup (cacheInsert c (keyOf g) u) (keyOf g) = some u
      unfold cacheInsert lookup
      rw [if_pos rfl]
  · rw [hl] at hstep
    simp only [Option.some.injEq, Prod.mk.injEq] at hstep
    obtain ⟨rfl, rfl⟩ := hstep
    exact hl

/-- No helper invocation ever removes or overwrites an existing cache
binding. -/
theorem callGen_preserves {g : Gen} {e : Entropy} {c c' : Cache} {v : GVal}
    {k : GKey} {w : GVal}
    (hstep : callGen g e c = some (v, c')) (hk : lookup c k = some w) :
    lookup c' k = some w := by
  unfold callGen at hstep
  by_cases hg : cachedGen g = true
  · rw [if_pos hg] at hstep
    rcases hl : lookup c (keyOf g) with _ | u
    · rw [hl] at hstep
      rcases hf : freshGen g e with _ | u'
      · rw [hf] at hstep
        cases hstep
      · rw [hf] at hstep
        simp only [Option.some.injEq, Prod.mk.injEq] at hstep
        obtain ⟨rfl, rfl⟩ := hstep
        show lookup (cacheInsert c (keyOf g) u') k = some w
        unfold cacheInsert lookup
        rw [if_neg ?_]
        · exact hk
        · intro hkk
          rw [hkk, hl] at hk
          cases hk
    · rw [hl] at hstep
      simp only [Option.some.injEq, Prod.mk.injEq] at hstep
      obtain ⟨rfl, rfl⟩ := hstep
      exact hk
  · rw [if_neg hg] at hstep
    rcases hf : freshGen g e with _ | u
    · rw [hf] at hstep
      cases hstep
    · rw [hf] at hstep
      simp only [Option.some.injEq, Prod.mk.injEq] at hstep
      obtain ⟨rfl, rfl⟩ := hstep
      exact hk

/-- If a cached helper's key is bound to `w` when a run starts, every
invocation of that helper inside the run returns `w`. -/
theorem runCalls_cached_lookup {cs : List (Gen × Entropy)} {c c₁ : Cache}
    {vs : List GVal} {g : Gen} {w : GVal}
    (hrun : runCalls cs c = some (vs, c₁)) (hg : cachedGen g = true)
    (hl : lookup c (keyOf g) = some w) :
    ∀ j ej v, cs.get? j = some (g, ej) → vs.get? j = some v → v = w := by
  induction cs generalizing c vs with
  | nil =>
    intro j ej v hj hv
    rw [List.get?_nil] at hj
    cases hj
  | cons head rest ih =>
    obtain ⟨g₀, e₀⟩ := head
    rw [runCalls] at hrun
    rcases hstep : callGen g₀ e₀ c with _ | ⟨v₀, c'⟩
    · simp only [hstep] at hrun
      cases hrun
    · simp only [hstep] at hrun
      rcases hrest : runCalls rest c' with _ | ⟨vs', c''⟩
      · simp only [hrest] at hrun
        cases hrun
      · simp only [hrest, Option.some.injEq, Prod.mk.injEq] at hrun
        obtain ⟨rfl, rfl⟩ := hrun
        intro j ej v hj hv
        cases j with
        | zero =>
          rw [List.get?_cons_zero] at hj hv
          simp only [Option.some.injEq, Prod.mk.injEq] at hj
          obtain ⟨rfl, rfl⟩ := hj
          simp only [Option.some.injEq] at hv
          have hhit := callGen_cached_hit e₀ hg hl
          rw [hhit] at hstep
          simp only [Option.some.injEq, Prod.mk.injEq] at hstep
          obtain ⟨rfl, rfl⟩ := hstep
          exact hv.symm ▸ rfl
        | succ j' =>
          rw [List.get?_cons_succ] at hj hv
          exact ih hrest (callGen_preserves hstep hl) j' ej v hj hv

/-- C1, amended.  Within one transaction (one threaded random cache over
the response rendering and all fan-out body renderings), any two
invocations of the same *cached* generator helper with the same arguments
— `randInt`, `randNumericString`, `randName`, `randVenezuelanID`,
`randAccount`, `randMessage`, as recorded by `cachedGen` — return the same
value, regardless of the entropy each invocation draws.  (`randString`,
`randChoice` and `randFloat` are exempt: they bypass the cache.) -/
theorem c1_cached_generator_coherence {cs : List (Gen × Entropy)} {c₀ c₁ : Cache}
    {vs : List GVal} {g : Gen} {i j : Nat} {ei ej : Entropy} {v w : GVal}
    (hrun : runCalls cs c₀ = some (vs, c₁)) (hg : cachedGen g = true)
    (hij : i < j)
    (hi : cs.get? i = some (g, ei)) (hj : cs.get? j = some (g, ej))
    (hvi : vs.get? i = some v) (hvj : vs.get? j = some w) : v = w := by
  induction cs generalizing c₀ vs i j with
  | nil =>
    rw [List.get?_nil] at hi
    cases hi
  | cons head rest ih =>
    obtain ⟨g₀, e₀⟩ := head
    rw [runCalls] at hrun
    rcases hstep : callGen g₀ e₀ c₀ with _ | ⟨v₀, c'⟩
    · simp only [hstep] at hrun
      cases hrun
    · simp only [hstep] at hrun
      rcases hrest : runCalls rest c' with _ | ⟨vs', c''⟩
      · simp only [hrest] at hrun
        cases hrun
      · simp only [hrest, Option.some.injEq, Prod.mk.injEq] at hrun
        obtain ⟨rfl, rfl⟩ := hrun
        cases i with
        | zero =>
          rw [List.get?_cons_zero] at hi hvi
          simp only [Option.some.injEq, Prod.mk.injEq] at hi
          obtain ⟨rfl, rfl⟩ := hi
          simp only [Option.some.injEq] at hvi
          obtain ⟨j', rfl⟩ : ∃ j', j = j' + 1 := by
            cases j with
            | zero => cases hij
            | succ j' => exact ⟨j', rfl⟩
          rw [List.get?_cons_succ] at hj hvj
          have hst := callGen_cached_stores hg hstep
          have := runCalls_cached_lookup hrest hg hst j' ej w hj hvj
          rw [← hvi, this]
        | succ i' =>
          obtain ⟨j', rfl⟩ : ∃ j', j = j' + 1 := by
            cases j with
            | zero => cases hij
            | succ j' => exact ⟨j', rfl⟩
          rw [List.get?_cons_succ] at hi hj hvi hvj
          exact ih hrest (Nat.succ_lt_succ_iff.mp hij) hi hj hvi hvj

/-- C1 coherence, witness: two `randName` invocations in one transaction
(one in the response body, one in an async body, with different entropy)
evaluate to the same cached value. -/
theorem c1_witness :
    runCalls [(Gen.randNameG, eZero), (Gen.randNameG, eOne)] []
      = some ([GVal.s "Kathryn Schmitt", GVal.s "Kathryn Schmitt"],
          [(GKey.randNameK, GVal.s "Kathryn Schmitt")]) ∧
    GVal.s "Kathryn Schmitt" = GVal.s "Kathryn Schmitt" := by
  constructor
  · rfl
  · exact @c1_cached_generator_coherence
      [(Gen.randNameG, eZero), (Gen.randNameG, eOne)] []
      [(GKey.randNameK, GVal.s "Kathryn Schmitt")]
      [GVal.s "Kathryn Schmitt", GVal.s "Kathryn Schmitt"]
      Gen.randNameG 0 1 eZero eOne
      (GVal.s "Kathryn Schmitt") (GVal.s "Kathryn Schmitt")
      rfl rfl (by omega) rfl rfl rfl rfl

/-- C1, counterexample.  The claim quantifies over *all* generator
helpers, including `randChoice`; but two invocations of
`randChoice "a" "b"` in the same transaction (empty starting cache)
return "a" and then "b" under different entropy: `randChoice` (like
`randString` and `randFloat`) bypasses the random cache, so the claimed
coherence fails for it. -/
theorem c1_counterexample :
    runCalls [(Gen.randChoiceG ["a", "b"], eZero), (Gen.randChoiceG ["a", "b"], eOne)] []
      = some ([GVal.s "a", GVal.s "b"], []) ∧ GVal.s "a" ≠ GVal.s "b" := by
  exact ⟨rfl, by decide⟩

/-! ### randInt range and panic behaviour (C10) -/

/-- Caches reachable by helper invocations from the empty per-transaction
cache. -/
inductive ReachableCache : Cache → Prop where
  | empty : ReachableCache []
  | step {c c' : Cache} {g : Gen} {e : Entropy} {v : GVal} :
      ReachableCache c → callGen g e c = some (v, c') → ReachableCache c'

/-- Invariant: every cached `randInt` binding stems from a successful
`randInt` call, so its arguments satisfy `lo < hi` and its value lies in
`[lo, hi)`. -/
def randIntInv (c : Cache) : Prop :=
  ∀ lo hi v, lookup c (GKey.randIntK lo hi) = some v →
    lo < hi ∧ ∃ n : Int, v = GVal.i n ∧ lo ≤ n ∧ n < hi

/-- Only `randInt lo hi` itself has cache key `randIntK lo hi`. -/
theorem keyOf_randIntK {g : Gen} {lo hi : Int} (h : keyOf g = GKey.randIntK lo hi) :
    g = Gen.randIntG lo hi := by
  cases g <;> simp only [keyOf] at h <;> cases h <;> rfl

theorem randIntInv_nil : randIntInv [] := by
  intro lo hi v hv
  cases hv

/-- The invariant is preserved by every helper invocation. -/
theorem randIntInv_step {c c' : Cache} {g : Gen} {e : Entropy} {v : GVal}
    (hinv : randIntInv c) (hstep : callGen g e c = some (v, c')) :
    randIntInv c' := by
  unfold callGen at hstep
  by_cases hg : cachedGen g = true
  · rw [if_pos hg] at hstep
    rcases hl : lookup c (keyOf g) with _ | u
    · rw [hl] at hstep
      rcases hf : freshGen g e with _ | u'
      · rw [hf] at hstep
        cases hstep
      · rw [hf] at hstep
        simp only [Option.some.injEq, Prod.mk.injEq] at hstep
        obtain ⟨rfl, rfl⟩ := hstep
        intro lo hi w hw
        unfold cacheInsert lookup at hw
        by_cases hkk : GKey.randIntK lo hi = keyOf g
        · rw [if_pos hkk] at hw
          simp only [Option.some.injEq] at hw
          have hgeq := keyOf_randIntK hkk.symm
          subst hgeq
          simp only [freshGen] at hf
          by_cases hle : hi - lo ≤ 0
          · rw [if_pos hle] at hf
            cases hf
          · rw [if_neg hle] at hf
            simp only [Option.some.injEq] at hf
            refine ⟨by omega, (e.rolls 0 : Int) % (hi - lo) + lo, ?_, ?_, ?_⟩
            · rw [← hw, ← hf]
            · have := Int.emod_nonneg (e.rolls 0 : Int) (by omega : hi - lo ≠ 0)
              omega
            · have := Int.emod_lt_of_pos (e.rolls 0 : Int) (by omega : 0 < hi - lo)
              omega
        · rw [if_neg hkk] at hw
          exact hinv lo hi w hw
    · rw [hl] at hstep
      simp only [Option.some.injEq, Prod.mk.injEq] at hstep
      obtain ⟨rfl, rfl⟩ := hstep
      exact hinv
  · rw [if_neg hg] at hstep
    rcases hf : freshGen g e with _ | u
    · rw [hf] at hstep
      cases hstep
    · rw [hf] at hstep
      simp only [Option.some.injEq, Prod.mk.injEq] at hstep
      obtain ⟨rfl, rfl⟩ := hstep
      exact hinv

theorem reachable_randIntInv {c : Cache} (h : ReachableCache c) : randIntInv c := by
  induction h with
  | empty => exact randIntInv_nil
  | step _ hstep ih => exact randIntInv_step ih hstep

/-- C10.  In every reachable per-transaction cache state, the `randInt`
helper with `lo < hi` returns a value in the half-open interval
`[lo, hi)` — in particular it never returns `hi` — and with `hi ≤ lo` it
panics (`rand.Intn` is called with a non-positive argument; modelled by
`none`) instead of returning a value. -/
theorem c10_randInt_range_and_panic (c : Cache) (hc : ReachableCache c)
    (lo hi : Int) (e : Entropy) :
    (hi ≤ lo → callGen (Gen.randIntG lo hi) e c = none) ∧
    (lo < hi → ∃ n c', callGen (Gen.randIntG lo hi) e c = some (GVal.i n, c') ∧
      lo ≤ n ∧ n < hi) := by
  have hinv := reachable_randIntInv hc
  constructor
  · intro hle
    rcases hl : lookup c (keyOf (Gen.randIntG lo hi)) with _ | u
    · simp [callGen, cachedGen, hl, freshGen, show hi - lo ≤ 0 by omega]
    · exact absurd (hinv lo hi u hl).1 (by omega)
  · intro hlt
    rcases hl : lookup c (keyOf (Gen.randIntG lo hi)) with _ | u
    · refine ⟨(e.rolls 0 : Int) % (hi - lo) + lo,
        cacheInsert c (keyOf (Gen.randIntG lo hi))
          (GVal.i ((e.rolls 0 : Int) % (hi - lo) + lo)), ?_, ?_, ?_⟩
      · simp [callGen, cachedGen, hl, freshGen, show ¬ hi - lo ≤ 0 by omega]
      · have := Int.emod_nonneg (e.rolls 0 : Int) (by omega : hi - lo ≠ 0)
        omega
      · have := Int.emod_lt_of_pos (e.rolls 0 : Int) (by omega : 0 < hi - lo)
        omega
    · obtain ⟨_, n, rfl, hn1, hn2⟩ := hinv lo hi u hl
      refine ⟨n, c, ?_, hn1, hn2⟩
      simp [callGen, cachedGen, hl]

/-- C10, witness: on the empty cache `randInt 3 3` panics and
`randInt 1 5` returns a value in `[1, 5)`. -/
theorem c10_witness :
    callGen (Gen.randIntG 3 3) eZero [] = none ∧
    (∃ n c', callGen (Gen.randIntG 1 5) eZero [] = some (GVal.i n, c') ∧
      1 ≤ n ∧ n < 5) :=
  ⟨(c10_randInt_range_and_panic [] ReachableCache.empty 3 3 eZero).1 le_rfl,
   (c10_randInt_range_and_panic [] ReachableCache.empty 1 5 eZero).2 (by norm_num)⟩

/-! ## Request pipeline (src/internal/handler/handler.go, HandleRequest)

`HandleRequest` has four exits: chaos short-circuit, schema-validation
failure (400), response-template failure (500), and success; each calls
`insertTransactionToDB` once before returning.  The handler is modelled
as the list of externally visible events it emits; decision inputs that
come from collaborators (schema validation outcome, template render
outcome) are oracles.  `c.JSON(code, obj)` on the error paths is modelled
as the status write alone. -/

structure HLocation where
  path : String
  method : String
  statusCode : Int
  response : String
  headers : List (String × String)
  hasSchema : Bool
  chaosInjection : Option ChaosInjection
  async : List String
  staticFilesDir : String

inductive HEvent where
  | sleepEv (ms : Int)
  | statusEv (code : Int)
  | bodyEv (s : String)
  | headerEv (k v : String)
  | asyncEv (url : String)
  | staticEv (dir : String)
  | captureEv
deriving DecidableEq

/-- The events emitted by `ApplyChaos` inside the handler, plus whether it
short-circuited. -/
def chaosEvents (cfg : Option ChaosInjection) (r1 r2 r3 : ℚ) : List HEvent × Bool :=
  match cfg with
  | none => ([], false)
  | some c =>
    let sleepEvs : List HEvent :=
      if 0 < applyLatency c.latency r1 then [HEvent.sleepEv (applyLatency c.latency r1)]
      else []
    if 0 < applyAbort c.abort r2 then
      (sleepEvs ++ [HEvent.statusEv (applyAbort c.abort r2)], true)
    else if 0 < applyError c.error r3 then
      (sleepEvs ++ [HEvent.statusEv (applyError c.error r3)], true)
    else (sleepEvs, false)

/-- `Handler.insertTransactionToDB`: skips entirely when the batch manager
is nil or not running, else builds one record and enqueues it once. -/
def insertTransactionToDB (batcherRunning : Bool) : List HEvent :=
  if batcherRunning then [HEvent.captureEv] else []

/-- `Handler.HandleRequest`: chaos, then schema validation, then headers,
async fan-out, status, template-rendered body; every exit path captures
the transaction. -/
def handleRequest (loc : HLocation) (r1 r2 r3 : ℚ)
    (validationFails templateFails : Bool) (rendered : String)
    (batcherRunning : Bool) : List HEvent :=
  let ce := chaosEvents loc.chaosInjection r1 r2 r3
  if ce.2 then ce.1 ++ insertTransactionToDB batcherRunning
  else
    ce.1 ++
      (if loc.hasSchema && validationFails then
        HEvent.statusEv 400 :: insertTransactionToDB batcherRunning
      else
        (loc.headers.map (fun kv => HEvent.headerEv kv.1 kv.2)) ++
        (loc.async.map (fun u => HEvent.asyncEv u)) ++
        [HEvent.statusEv loc.statusCode] ++
        (if loc.response ≠ "" then
          (if templateFails then HEvent.statusEv 500 :: insertTransactionToDB batcherRunning
           else HEvent.bodyEv rendered :: insertTransactionToDB batcherRunning)
         else insertTransactionToDB batcherRunning))

/-- Number of capture (batcher-enqueue) events in a handler trace. -/
def captures : List HEvent → Nat
  | [] => 0
  | HEvent.captureEv :: rest => captures rest + 1
  | _ :: rest => captures rest

theorem captures_append (xs ys : List HEvent) :
    captures (xs ++ ys) = captures xs + captures ys := by
  induction xs with
  | nil => simp [captures]
  | cons x xs ih => cases x <;> simp [captures, ih] <;> omega

theorem captures_map_header (l : List (String × String)) :
    captures (l.map (fun kv => HEvent.headerEv kv.1 kv.2)) = 0 := by
  induction l with
  | nil => rfl
  | cons x xs ih => simpa [captures] using ih

theorem captures_map_async (l : List String) :
    captures (l.map (fun u => HEvent.asyncEv u)) = 0 := by
  induction l with
  | nil => rfl
  | cons x xs ih => simpa [captures] using ih

theorem captures_chaosEvents (cfg : Option ChaosInjection) (r1 r2 r3 : ℚ) :
    captures (chaosEvents cfg r1 r2 r3).1 = 0 := by
  unfold chaosEvents
  rcases cfg with _ | c
  · rfl
  · by_cases h1 : 0 < applyLatency c.latency r1 <;>
      by_cases h2 : 0 < applyAbort c.abort r2 <;>
        by_cases h3 : 0 < applyError c.error r3 <;>
          simp [h1, h2, h3, captures_append, captures]

/-- Every control path of `HandleRequest` — chaos short-circuit,
schema-validation rejection, template failure, and success — captures the
transaction exactly once. -/
theorem handleRequest_capture_once (loc : HLocation) (r1 r2 r3 : ℚ)
    (validationFails templateFails : Bool) (rendered : String) :
    captures (handleRequest loc r1 r2 r3 validationFails templateFails rendered true)
      = 1 := by
  unfold handleRequest insertTransactionToDB
  by_cases hc : (chaosEvents loc.chaosInjection r1 r2 r3).2 = true
  · simp [hc, captures_append, captures_chaosEvents, captures]
  · by_cases hv : (loc.hasSchema && validationFails) = true
    · simp [hc, hv, captures_append, captures_chaosEvents, captures]
    · by_cases hr : loc.response = ""
      · simp [hc, hv, hr, captures_append, captures_chaosEvents, captures,
          captures_map_header, captures_map_async]
      · by_cases ht : templateFails = true <;>
          simp [hc, hv, hr, ht, captures_append, captures_chaosEvents, captures,
            captures_map_header, captures_map_async]

/-- `Server.registerRoutes` dispatch: a location with a non-empty
`static_dir` is mounted with `Router.Static`, which serves the directory
directly — `HandleRequest` (and with it `insertTransactionToDB`) is never
invoked for such requests; every other location is wired to
`HandleRequest`. -/
def serveRequest (loc : HLocation) (r1 r2 r3 : ℚ)
    (validationFails templateFails : Bool) (rendered : String)
    (batcherRunning : Bool) : List HEvent :=
  if loc.staticFilesDir ≠ "" then [HEvent.staticEv loc.staticFilesDir]
  else handleRequest loc r1 r2 r3 validationFails templateFails rendered batcherRunning

/-- A location mounted as a static directory. -/
def staticLoc : HLocation :=
  { path := "/site", method := "GET", statusCode := 200, response := ""
    headers := [], hasSchema := false, chaosInjection := none, async := []
    staticFilesDir := "/var/www/samplesite" }

/-- An ordinary dynamic location. -/
def dynLoc : HLocation :=
  { path := "/api/test", method := "GET", statusCode := 200, response := "{}"
    headers := [], hasSchema := false, chaosInjection := none, async := []
    staticFilesDir := "" }

/-- C3, counterexample.  A request served from a `static_dir` location is
dispatched to `Router.Static` and produces zero capture events — not the
exactly one record the claim demands for every served request. -/
theorem c3_counterexample :
    captures (serveRequest staticLoc 0 0 0 false false "" true) = 0 ∧ (0 : Nat) ≠ 1 :=
  ⟨rfl, by decide⟩

/-- C3, amended.  With the batch manager available and running, every
request served by a dynamic route handler (a location whose `static_dir`
is empty) captures exactly one transaction record on every control path —
chaos short-circuit, schema-validation rejection, template failure, and
success; a request served from a `static_dir` mount bypasses the handler
and captures nothing. -/
theorem c3_dynamic_capture_exactly_once (loc : HLocation) (r1 r2 r3 : ℚ)
    (validationFails templateFails : Bool) (rendered : String)
    (hdyn : loc.staticFilesDir = "") :
    captures (serveRequest loc r1 r2 r3 validationFails templateFails rendered true)
      = 1 := by
  unfold serveRequest
  rw [if_neg (by rw [hdyn]; exact fun h => h rfl)]
  exact handleRequest_capture_once loc r1 r2 r3 validationFails templateFails rendered

/-- C3 amended, witness at a concrete dynamic location. -/
theorem c3_witness :
    captures (serveRequest dynLoc 0 0 0 false false "{}" true) = 1 :=
  c3_dynamic_capture_exactly_once dynLoc 0 0 0 false false "{}" rfl

/-! ## Transaction batcher (src/database/batch.go, src/database/colas.go)

The embedded store is the list of durably committed rows of
`mock_transactions`.  SQL failures are injected through a `DBOracle`
(per-call success of `Begin`, `Prepare`, each `Exec`, `Commit`); the
`database/sql` transaction semantics make a rolled-back transaction leave
the store unchanged and a committed one append all executed rows. -/

structure Mockdata where
  uuid : String
  recepcionID : String
  senderID : String
  requestHeaders : String
  requestMethod : String
  requestEndpoint : String
  requestBody : String
  responseHeaders : String
  responseBody : String
  responseStatusCode : Int
  timestamp : Int
deriving DecidableEq

abbrev Store := List Mockdata

def sampleRec : Mockdata :=
  { uuid := "u", recepcionID := "r", senderID := "s", requestHeaders := "rh"
    requestMethod := "GET", requestEndpoint := "/api/test", requestBody := ""
    responseHeaders := "sh", responseBody := "{}", responseStatusCode := 200
    timestamp := 0 }

structure QMState where
  running : Bool
  ctxDone : Bool
  queue : List Mockdata
  cap : Nat

inductive AddReqResult where
  | ok
  | notRunning
  | ctxErr
  | queueFull
deriving DecidableEq

/-- `QueueManager.AddRequest`: `ErrQueueNotRunning` when stopped, else a
select over {send to `InputQueue`, ctx.Done, default}.  Under the
sequential lifecycle invariant (`running → ¬ctxDone`, established by
`Start`/`Stop` ordering) the context branch is unreachable, and the
select resolves to the send when the bounded queue has room and to the
default (`ErrQueueFull`) otherwise. -/
def AddRequest (qm : QMState) (op : Mockdata) : AddReqResult × QMState :=
  if qm.running = false then (AddReqResult.notRunning, qm)
  else if qm.queue.length < qm.cap then
    (AddReqResult.ok, { qm with queue := qm.queue ++ [op] })
  else if qm.ctxDone then (AddReqResult.ctxErr, qm)
  else (AddReqResult.queueFull, qm)

structure BMState where
  running : Bool
  qm : QMState
  store : Store

/-- `BatchManager.insertSync` = `InsertOperation`: a direct synchronous
insert into the store. -/
def insertSync (bm : BMState) (op : Mockdata) : BMState :=
  { bm with store := bm.store ++ [op] }

inductive AddOpOutcome where
  | enqueued
  | insertedSync
  | errReturned (e : AddReqResult)
deriving DecidableEq

/-- `BatchManager.AddOperation`: fall back to a direct insert when the
batch manager is not running or the input queue is full; other
`AddRequest` errors are returned to the caller unchanged. -/
def AddOperation (bm : BMState) (op : Mockdata) : AddOpOutcome × BMState :=
  if bm.running = false then (AddOpOutcome.insertedSync, insertSync bm op)
  else
    match AddRequest bm.qm op with
    | (AddReqResult.ok, qm') => (AddOpOutcome.enqueued, { bm with qm := qm' })
    | (AddReqResult.queueFull, _) => (AddOpOutcome.insertedSync, insertSync bm op)
    | (r, _) => (AddOpOutcome.errReturned r, bm)

/-- Under the lifecycle invariant, `AddRequest` resolves to one of the
three documented outcomes, with its exact effect on the queue. -/
theorem addRequest_spec (qm : QMState) (op : Mockdata)
    (hinv : qm.running = true → qm.ctxDone = false) :
    (qm.running = true ∧ qm.queue.length < qm.cap ∧
      AddRequest qm op = (AddReqResult.ok, { qm with queue := qm.queue ++ [op] })) ∨
    (qm.running = true ∧ ¬ qm.queue.length < qm.cap ∧
      AddRequest qm op = (AddReqResult.queueFull, qm)) ∨
    (qm.running = false ∧ AddRequest qm op = (AddReqResult.notRunning, qm)) := by
  unfold AddRequest
  by_cases h1 : qm.running = false
  · exact Or.inr (Or.inr ⟨h1, by rw [if_pos h1]⟩)
  · have h1' : qm.running = true := by
      revert h1
      cases qm.running <;> simp
    by_cases h2 : qm.queue.length < qm.cap
    · exact Or.inl ⟨h1', h2, by rw [if_neg h1, if_pos h2]⟩
    · refine Or.inr (Or.inl ⟨h1', h2, ?_⟩)
      rw [if_neg h1, if_neg h2, if_neg ?_]
      rw [hinv h1']
      simp

/-- C8.  Under the sequential lifecycle invariants, adding a capture
record resolves to `Ok`, `QueueFull` or `NotRunning`; the record is never
lost: it is either appended to the bounded input queue (`Ok`) or written
by the direct synchronous insert fallback (`QueueFull` observed from the
queue, and `NotRunning` observed from the batch manager). -/
theorem c8_add_fallback (bm : BMState) (op : Mockdata)
    (hinv1 : bm.running = true → bm.qm.running = true)
    (hinv2 : bm.qm.running = true → bm.qm.ctxDone = false) :
    ((AddRequest bm.qm op).1 = AddReqResult.ok ∨
     (AddRequest bm.qm op).1 = AddReqResult.queueFull ∨
     (AddRequest bm.qm op).1 = AddReqResult.notRunning) ∧
    (((AddOperation bm op).1 = AddOpOutcome.enqueued ∧
        (AddOperation bm op).2.qm.queue = bm.qm.queue ++ [op] ∧
        (AddOperation bm op).2.store = bm.store) ∨
     ((AddOperation bm op).1 = AddOpOutcome.insertedSync ∧
        (AddOperation bm op).2.store = bm.store ++ [op])) := by
  constructor
  · rcases addRequest_spec bm.qm op hinv2 with ⟨_, _, h⟩ | ⟨_, _, h⟩ | ⟨_, h⟩ <;>
      rw [h] <;> simp
  · unfold AddOperation
    by_cases hbm : bm.running = false
    · rw [if_pos hbm]
      exact Or.inr ⟨rfl, rfl⟩
    · rw [if_neg hbm]
      have hq : bm.qm.running = true := by
        apply hinv1
        revert hbm
        cases bm.running <;> simp
      rcases addRequest_spec bm.qm op hinv2 with ⟨_, _, h⟩ | ⟨_, _, h⟩ | ⟨hqr, _⟩
      · left
        simp [h]
      · right
        simp [h, insertSync]
      · rw [hq] at hqr
        cases hqr

def bmSample : BMState :=
  { running := true
    qm := { running := true, ctxDone := false, queue := [], cap := 10 }
    store := [] }

/-- C8, witness: a running batcher with queue room enqueues the record. -/
theorem c8_witness :
    ((AddRequest bmSample.qm sampleRec).1 = AddReqResult.ok ∨
     (AddRequest bmSample.qm sampleRec).1 = AddReqResult.queueFull ∨
     (AddRequest bmSample.qm sampleRec).1 = AddReqResult.notRunning) ∧
    (((AddOperation bmSample sampleRec).1 = AddOpOutcome.enqueued ∧
        (AddOperation bmSample sampleRec).2.qm.queue = bmSample.qm.queue ++ [sampleRec] ∧
        (AddOperation bmSample sampleRec).2.store = bmSample.store) ∨
     ((AddOperation bmSample sampleRec).1 = AddOpOutcome.insertedSync ∧
        (AddOperation bmSample sampleRec).2.store = bmSample.store ++ [sampleRec])) :=
  c8_add_fallback bmSample sampleRec (fun _ => rfl) (fun _ => rfl)

/-! ## Descriptor loader validation (src/unnamed/part_008, validateConfig)

Only the fields `validateConfig` inspects are modelled.  Errors carry the
offending server/location indexes, mirroring the field-qualified
`fmt.Errorf` messages. -/

structure SLocation where
  path : String
  method : String
  statusCode : Int
deriving DecidableEq

structure SServer where
  listen : Int
  location : List SLocation
deriving DecidableEq

structure SMockServer where
  servers : List SServer
deriving DecidableEq

inductive LoadError where
  | noServers
  | badListen (i : Nat) (port : Int)
  | noLocations (i : Nat)
  | emptyPath (i j : Nat)
  | emptyMethod (i j : Nat)
  | badStatus (i j : Nat) (code : Int)
deriving DecidableEq

def validateLocations (i : Nat) : Nat → List SLocation → Option LoadError
  | _, [] => none
  | j, l :: rest =>
    if l.path = "" then some (LoadError.emptyPath i j)
    else if l.method = "" then some (LoadError.emptyMethod i j)
    else if l.statusCode ≤ 0 then some (LoadError.badStatus i j l.statusCode)
    else validateLocations i (j + 1) rest

def validateServers : Nat → List SServer → Option LoadError
  | _, [] => none
  | i, s :: rest =>
    if s.listen ≤ 0 then some (LoadError.badListen i s.listen)
    else if s.location.isEmpty then some (LoadError.noLocations i)
    else
      match validateLocations i 0 s.location with
      | some e => some e
      | none => validateServers (i + 1) rest

/-- `validateConfig`: at least one server; per server a positive listen
port and at least one location; per location a non-empty path, a
non-empty method, and a positive status code.  No upper bound on
`status_code`, no method-enum check, and no duplicate-port check. -/
def validateConfig (cfg : SMockServer) : Option LoadError :=
  if cfg.servers.isEmpty then some LoadError.noServers
  else validateServers 0 cfg.servers

/-- A descriptor with one server and one GET location, with the given
status code. -/
def mkOneLocConfig (code : Int) : SMockServer :=
  { servers := [{ listen := 8080,
                  location := [{ path := "/api/test", method := "GET",
                                 statusCode := code }] }] }

/-- C5, counterexample.  The loader accepts `status_code = 99` and
`status_code = 600` (no `LoadError` is returned), contradicting the
claimed rejection of values outside [100, 599]. -/
theorem c5_counterexample :
    validateConfig (mkOneLocConfig 99) = none ∧
    validateConfig (mkOneLocConfig 600) = none :=
  ⟨rfl, rfl⟩

/-- C5, amended.  The loader accepts a location exactly when its
`status_code` is positive: 100 and 599 are accepted, but so are 99 and
600; only `status_code ≤ 0` is rejected. -/
theorem c5_status_accepted_iff_positive (code : Int) :
    validateConfig (mkOneLocConfig code) = none ↔ 0 < code := by
  by_cases h : code ≤ 0
  · have hloc : validateLocations 0 0
        [{ path := "/api/test", method := "GET", statusCode := code }]
        = some (LoadError.badStatus 0 0 code) := by
      show (if code ≤ 0 then some (LoadError.badStatus 0 0 code)
            else validateLocations 0 1 []) = _
      rw [if_pos h]
    have hval : validateConfig (mkOneLocConfig code)
        = some (LoadError.badStatus 0 0 code) := by
      show (match validateLocations 0 0
              [{ path := "/api/test", method := "GET", statusCode := code }] with
            | some e => some e
            | none => validateServers 1 []) = _
      rw [hloc]
    rw [hval]
    constructor
    · intro hx
      cases hx
    · intro hx
      omega
  · have hloc : validateLocations 0 0
        [{ path := "/api/test", method := "GET", statusCode := code }] = none := by
      show (if code ≤ 0 then some (LoadError.badStatus 0 0 code)
            else validateLocations 0 1 []) = _
      rw [if_neg h]
      rfl
    have hval : validateConfig (mkOneLocConfig code) = none := by
      show (match validateLocations 0 0
              [{ path := "/api/test", method := "GET", statusCode := code }] with
            | some e => some e
            | none => validateServers 1 []) = _
      rw [hloc]
      rfl
    rw [hval]
    constructor
    · intro _
      omega
    · intro _
      rfl

/-- C5, witness: the boundary values 100 and 599 are accepted. -/
theorem c5_witness :
    validateConfig (mkOneLocConfig 100) = none ∧
    validateConfig (mkOneLocConfig 599) = none :=
  ⟨(c5_status_accepted_iff_positive 100).mpr (by norm_num),
   (c5_status_accepted_iff_positive 599).mpr (by norm_num)⟩

/-! ## Listener supervisor (src/internal/server/server.go) -/

/-- A descriptor tree with two servers declaring the same listen port. -/
def dupPortConfig : SMockServer :=
  { servers :=
      [{ listen := 8080,
         location := [{ path := "/a", method := "GET", statusCode := 200 }] },
       { listen := 8080,
         location := [{ path := "/b", method := "GET", statusCode := 200 }] }] }

/-- C6, counterexample.  `validateConfig` accepts a descriptor tree with
two servers on the same listen port — the loader performs no
duplicate-port check, contradicting the claimed load-time rejection. -/
theorem c6_counterexample : validateConfig dupPortConfig = none := rfl

/-- `Manager.CreateServer` — the listener map is keyed by the listen
port (modelled as the list of bound ports); a port already present is
rejected before any construction.  Database initialisation and route
registration may fail (`dbOk`, `routesOk`); every failure path returns an
error (`none`) and leaves the map unchanged. -/
def CreateServer (servers : List Int) (port : Int) (dbOk routesOk : Bool) :
    Option (List Int) :=
  if port ∈ servers then none
  else if dbOk = false then none
  else if routesOk = false then none
  else some (servers ++ [port])

/-- C6, amended.  Port uniqueness is enforced by the supervisor, not the
loader: `CreateServer` on a port already held returns an error instead of
replacing the existing listener, a success extends the map by exactly the
new port, and the map of bound ports stays duplicate-free. -/
theorem c6_supervisor_port_uniqueness :
    (∀ (servers : List Int) (port : Int) (dbOk routesOk : Bool),
      port ∈ servers → CreateServer servers port dbOk routesOk = none) ∧
    (∀ (servers : List Int) (port : Int) (dbOk routesOk : Bool)
        (servers' : List Int),
      CreateServer servers port dbOk routesOk = some servers' →
      servers' = servers ++ [port] ∧ port ∉ servers) ∧
    (∀ (servers : List Int) (port : Int) (dbOk routesOk : Bool)
        (servers' : List Int),
      servers.Nodup → CreateServer servers port dbOk routesOk = some servers' →
      servers'.Nodup) := by
  have hsome : ∀ (servers : List Int) (port : Int) (dbOk routesOk : Bool)
      (servers' : List Int),
      CreateServer servers port dbOk routesOk = some servers' →
      servers' = servers ++ [port] ∧ port ∉ servers := by
    intro servers port dbOk routesOk servers' h
    unfold CreateServer at h
    by_cases h1 : port ∈ servers
    · rw [if_pos h1] at h
      cases h
    · rw [if_neg h1] at h
      by_cases h2 : dbOk = false
      · rw [if_pos h2] at h
        cases h
      · rw [if_neg h2] at h
        by_cases h3 : routesOk = false
        · rw [if_pos h3] at h
          cases h
        · rw [if_neg h3] at h
          injection h with h4
          exact ⟨h4.symm, h1⟩
  refine ⟨?_, hsome, ?_⟩
  · intro servers port dbOk routesOk hmem
    unfold CreateServer
    rw [if_pos hmem]
  · intro servers port dbOk routesOk servers' hnd h
    obtain ⟨rfl, hmem⟩ := hsome servers port dbOk routesOk servers' h
    rw [← List.concat_eq_append]
    exact List.Nodup.concat hmem hnd

/-- C6, witness: a duplicate port is refused; a fresh port extends the
map and keeps it duplicate-free. -/
theorem c6_witness :
    CreateServer [8080] 8080 true true = none ∧ ([8080, 9090] : List Int).Nodup :=
  ⟨c6_supervisor_port_uniqueness.1 [8080] 8080 true true (by decide),
   c6_supervisor_port_uniqueness.2.2 [8080] 9090 true true [8080, 9090]
     (by decide) rfl⟩

/-! ## Control plane (src/unnamed/part_002)

`PUT /api/mock/config?server_name=<n>`: the generic JSON document the
body unmarshals into is modelled as `Jsonv`; `parsed = none` models a
body rejected by `json.Unmarshal`.  The filesystem stores, per server
name, the descriptor document its YAML file holds (YAML serialization is
modelled by storing the document itself). -/

inductive Jsonv where
  | jnull
  | jbool (b : Bool)
  | jnum (q : ℚ)
  | jstr (s : String)
  | jarr (items : List Jsonv)
  | jobj (fields : List (String × Jsonv))

structure FsState where
  files : List (String × Jsonv)

def hasFile (fs : FsState) (name : String) : Bool :=
  (fs.files.find? (fun p => p.1 == name)).isSome

def writeFile (fs : FsState) (name : String) (doc : Jsonv) : FsState :=
  { files := fs.files.map (fun p => if p.1 == name then (p.1, doc) else p) }

structure CtrlState where
  fs : FsState
  restartQueue : List String

/-- `APIHandler.notifyRestart`: a non-blocking send on the capacity-10
restart channel; when the channel is full the signal is dropped
(`ErrChannelFull`, logged as a warning only). -/
def notifyRestart (st : CtrlState) (serverName : String) : CtrlState :=
  if st.restartQueue.length < 10 then
    { st with restartQueue := st.restartQueue ++ [serverName] }
  else st

/-- `strings.TrimSpace`, modelled structurally on the character list. -/
def trimSpace (s : String) : String :=
  String.mk (((s.data.dropWhile Char.isWhitespace).reverse.dropWhile
    Char.isWhitespace).reverse)

/-- `APIHandler.UpdateConfig` + `ConfigService.UpdateConfig`: empty
server name → 400; body not valid JSON → 400; no `<n>.yml|.yaml` in the
config dir → 404; otherwise the parsed document is marshalled to YAML,
written over the file, 200 is returned and a restart is signalled.  The
only validation applied to the body is `json.Unmarshal` into a generic
map. -/
def updateConfigEndpoint (serverName : String) (parsed : Option Jsonv)
    (st : CtrlState) : Int × CtrlState :=
  if trimSpace serverName = "" then (400, st)
  else
    match parsed with
    | none => (400, st)
    | some doc =>
      if hasFile st.fs serverName = false then (404, st)
      else (200, notifyRestart { st with fs := writeFile st.fs serverName doc } serverName)

def jGet : List (String × Jsonv) → String → Option Jsonv
  | [], _ => none
  | (k, v) :: rest, key => if k == key then some v else jGet rest key

/-- Decoding of the generic JSON document into the descriptor model
(mirroring `json.Unmarshal` into `models.MockServer`: absent fields take
zero values, wrong shapes fail). -/
def decodeInt : Option Jsonv → Option Int
  | none => some 0
  | some (Jsonv.jnum q) => if q.den = 1 then some q.num else none
  | some _ => none

def decodeStr : Option Jsonv → Option String
  | none => some ""
  | some (Jsonv.jstr s) => some s
  | some _ => none

def decodeLocation : Jsonv → Option SLocation
  | Jsonv.jobj fields => do
    let path ← decodeStr (jGet fields "path")
    let m ← decodeStr (jGet fields "method")
    let code ← decodeInt (jGet fields "status_code")
    pure { path := path, method := m, statusCode := code }
  | _ => none

def decodeLocations : List Jsonv → Option (List SLocation)
  | [] => some []
  | x :: rest => do
    let a ← decodeLocation x
    let as ← decodeLocations rest
    pure (a :: as)

def decodeServer : Jsonv → Option SServer
  | Jsonv.jobj fields => do
    let listen ← decodeInt (jGet fields "listen")
    let locs ←
      match jGet fields "location" with
      | none => some []
      | some (Jsonv.jarr items) => decodeLocations items
      | some _ => none
    pure { listen := listen, location := locs }
  | _ => none

def decodeServers : List Jsonv → Option (List SServer)
  | [] => some []
  | x :: rest => do
    let a ← decodeServer x
    let as ← decodeServers rest
    pure (a :: as)

def decodeMockServer : Jsonv → Option SMockServer
  | Jsonv.jobj fields =>
    (match jGet fields "http" with
     | none => some { servers := [] }
     | some (Jsonv.jobj hfields) =>
       (match jGet hfields "servers" with
        | none => some { servers := [] }
        | some (Jsonv.jarr items) =>
          (decodeServers items).map (fun ss => { servers := ss })
        | some _ => none)
     | some _ => none)
  | _ => none

/-- The document previously stored in alpha's YAML file. -/
def oldDoc : Jsonv := Jsonv.jobj []

/-- A body that is valid JSON but an invalid descriptor: it decodes to a
`MockServer` with zero servers, which `validateConfig` rejects. -/
def badDoc : Jsonv :=
  Jsonv.jobj [("http", Jsonv.jobj [("servers", Jsonv.jarr [])])]

def st0 : CtrlState :=
  { fs := { files := [("alpha", oldDoc)] }, restartQueue := [] }

/-- C9, counterexample.  `badDoc` is valid JSON whose descriptor fails
validation (`validateConfig` = `noServers`), yet
`PUT /api/mock/config?server_name=alpha` accepts it: the YAML file is
overwritten with the invalid descriptor, 200 is returned, and a restart
of alpha is signalled — contradicting the claim that a descriptor
failing validation is rejected with an error and the file left
unchanged. -/
theorem c9_counterexample :
    decodeMockServer badDoc = some { servers := [] } ∧
    validateConfig { servers := [] } = some LoadError.noServers ∧
    updateConfigEndpoint "alpha" (some badDoc) st0
      = (200, { fs := { files := [("alpha", badDoc)] }, restartQueue := ["alpha"] }) :=
  ⟨rfl, rfl, rfl⟩

/-- C9, amended.  The endpoint validates only that the body parses as
JSON: a non-JSON body is rejected with 400 and the file is unchanged; a
missing config file yields 404 with the file system unchanged; and any
JSON body — with no descriptor validation — is written over `<n>`'s YAML
file, answered with 200, and a restart of `<n>` is signalled (the signal
is dropped when the restart channel is full). -/
theorem c9_update_config_parses_only (serverName : String) (parsed : Option Jsonv)
    (st : CtrlState) (hname : ¬ trimSpace serverName = "") :
    (parsed = none → updateConfigEndpoint serverName parsed st = (400, st)) ∧
    (∀ doc, parsed = some doc → hasFile st.fs serverName = false →
      updateConfigEndpoint serverName parsed st = (404, st)) ∧
    (∀ doc, parsed = some doc → hasFile st.fs serverName = true →
      updateConfigEndpoint serverName parsed st
        = (200, notifyRestart { st with fs := writeFile st.fs serverName doc }
            serverName)) := by
  refine ⟨?_, ?_, ?_⟩
  · intro h
    subst h
    unfold updateConfigEndpoint
    rw [if_neg hname]
  · intro doc h hfile
    subst h
    unfold updateConfigEndpoint
    rw [if_neg hname]
    simp [hfile]
  · intro doc h hfile
    subst h
    unfold updateConfigEndpoint
    rw [if_neg hname]
    simp [hfile]

/-- C9 amended, witness at concrete states. -/
theorem c9_witness :
    updateConfigEndpoint "alpha" none st0 = (400, st0) ∧
    updateConfigEndpoint "alpha" (some oldDoc) st0
      = (200, notifyRestart { st0 with fs := writeFile st0.fs "alpha" oldDoc }
          "alpha") :=
  ⟨(c9_update_config_parses_only "alpha" none st0 (by decide)).1 rfl,
   (c9_update_config_parses_only "alpha" (some oldDoc) st0 (by decide)).2.2
     oldDoc rfl rfl⟩

end Mockingbird
